import Mathlib

/-!
Verification of the scheduler repository's specification claims.

The repository's `src/` tree only contains the frontend TypeScript layer
(the `APIClient`, the React pages and forms).  The backend engine
(ShiftInstanceExpander, EligibilityIndex, Optimizer, ScheduleLifecycle,
TrainingPipeline) is exercised through that client but its code is not in
the tree, so those components are modelled here from the specification
(`spec.md`), as flagged in each doc comment.  The frontend behaviour
(`APIClient.request`, `ScheduleDetail` grouping, `EmployeeForm.handleSubmit`)
is embedded directly from the TypeScript source.
-/

namespace Engine

/-- Modelled from the spec: the `ShiftTemplate` master-data record (spec section 3).
Times are minutes from midnight; dates are day numbers with day 0 a Monday,
so `day_of_week` matching is `date % 7`. -/
structure ShiftTemplate where
  id : Nat
  departmentId : Nat
  dayOfWeek : Nat
  startMin : Nat
  endMin : Nat
  durationHours : ℚ
  requiredEmployees : Nat
  isActive : Bool
deriving DecidableEq

/-- Modelled from the spec: the read-only `Employee` snapshot record (spec section 3). -/
structure Employee where
  id : Nat
  departmentId : Nat
  maxHoursPerWeek : ℚ
  isActive : Bool
deriving DecidableEq

/-- Modelled from the spec: a derived, non-persisted `ShiftInstance`
(template id, concrete date, start, end, required count; spec section 3). -/
structure ShiftInstance where
  templateId : Nat
  departmentId : Nat
  date : Nat
  startMin : Nat
  endMin : Nat
  hours : ℚ
  requiredCount : Nat
deriving DecidableEq

/-- Modelled from the spec: the persisted `Assignment` record produced by the
Optimizer (spec section 3). -/
structure Assignment where
  employeeId : Nat
  templateId : Nat
  date : Nat
  startMin : Nat
  endMin : Nat
  hours : ℚ
deriving DecidableEq

/-- Modelled from the spec: the immutable `EntitySnapshot` input of a
generation run (spec section 2), plus the requested date range and the
optional department restriction of `GenerateSchedule` (spec section 6). -/
structure Snapshot where
  employees : List Employee
  templates : List ShiftTemplate
  startDate : Nat
  endDate : Nat
  departmentIds : Option (List Nat)

/-- Inclusive list of day numbers of the requested range. -/
def datesInRange (s e : Nat) : List Nat := (List.range (e + 1 - s)).map (fun k => s + k)

/-- One dated occurrence of a template. -/
def instOfTemplate (t : ShiftTemplate) (d : Nat) : ShiftInstance :=
  { templateId := t.id, departmentId := t.departmentId, date := d,
    startMin := t.startMin, endMin := t.endMin,
    hours := t.durationHours, requiredCount := t.requiredEmployees }

/-- Modelled from the spec: `ShiftInstanceExpander` for a single template — one
instance per date in range whose weekday matches, only for active templates
(spec section 4.1). -/
def expandTemplate (t : ShiftTemplate) (s e : Nat) : List ShiftInstance :=
  if t.isActive then
    ((datesInRange s e).filter (fun d => decide (d % 7 = t.dayOfWeek))).map (instOfTemplate t)
  else []

/-- Department restriction: all templates if no list is requested. -/
def deptSelected (sel : Option (List Nat)) (dep : Nat) : Bool :=
  match sel with
  | none => true
  | some ds => ds.contains dep

def selectedTemplates (snap : Snapshot) : List ShiftTemplate :=
  snap.templates.filter (fun t => deptSelected snap.departmentIds t.departmentId)

/-- Modelled from the spec: `ShiftInstanceExpander` over the whole snapshot
(spec section 4.1). -/
def expandInstances (snap : Snapshot) : List ShiftInstance :=
  ((selectedTemplates snap).map (fun t => expandTemplate t snap.startDate snap.endDate)).flatten

/-- Week containing a date (day 0 is a Monday, so weeks are blocks of 7 days). -/
def week (d : Nat) : Nat := d / 7

def instSliceStart (i : ShiftInstance) : Nat := i.date * 1440 + i.startMin
def instSliceEnd (i : ShiftInstance) : Nat := i.date * 1440 + i.endMin
def asgSliceStart (a : Assignment) : Nat := a.date * 1440 + a.startMin
def asgSliceEnd (a : Assignment) : Nat := a.date * 1440 + a.endMin

/-- Half-open interval overlap test on absolute minutes. -/
def overlaps (s1 e1 s2 e2 : Nat) : Bool := decide (s1 < e2) && decide (s2 < e1)

def asgOverlaps (a b : Assignment) : Bool :=
  overlaps (asgSliceStart a) (asgSliceEnd a) (asgSliceStart b) (asgSliceEnd b)

/-- Hours already committed to an employee within one week, read off the
assignments accumulated so far in the run. -/
def hoursOf (asgs : List Assignment) (empId wk : Nat) : ℚ :=
  ((asgs.filter (fun a => a.employeeId == empId && week a.date == wk)).map
    (fun a => a.hours)).sum

/-- Weekly-hours headroom check (spec section 4.2). -/
def fitsHours (asgs : List Assignment) (e : Employee) (i : ShiftInstance) : Bool :=
  decide (hoursOf asgs e.id (week i.date) + i.hours ≤ e.maxHoursPerWeek)

/-- No-double-booking check against the assignments accumulated so far
(spec section 4.2). -/
def noClash (asgs : List Assignment) (empId : Nat) (i : ShiftInstance) : Bool :=
  asgs.all (fun a =>
    !(a.employeeId == empId) ||
      !(overlaps (asgSliceStart a) (asgSliceEnd a) (instSliceStart i) (instSliceEnd i)))

/-- Modelled from the spec: `EligibilityIndex` hard-constraint test — active,
same department, hour headroom, no overlap (spec section 4.2). -/
def eligibleB (asgs : List Assignment) (e : Employee) (i : ShiftInstance) : Bool :=
  e.isActive && (e.departmentId == i.departmentId) && fitsHours asgs e i && noClash asgs e.id i

/-- Modelled from the spec: a `PreferenceScorer` variant is any deterministic
scoring function of the accumulated state, the employee and the instance
(spec section 4.3); the claims quantify over the variant. -/
def Scorer : Type := List Assignment → Employee → ShiftInstance → ℚ

/-- Ranking key of a scored candidate: score descending, then hours committed
so far this week ascending, then employee id ascending (spec section 4.5,
step 2). -/
def rkey (asgs : List Assignment) (i : ShiftInstance) (p : Employee × ℚ) :
    Lex (ℚ × Lex (ℚ × Nat)) :=
  toLex (-p.2, toLex (hoursOf asgs p.1.id (week i.date), p.1.id))

def rankRel (asgs : List Assignment) (i : ShiftInstance) (p q : Employee × ℚ) : Prop :=
  rkey asgs i p ≤ rkey asgs i q

instance (asgs : List Assignment) (i : ShiftInstance) : DecidableRel (rankRel asgs i) :=
  fun p q => inferInstanceAs (Decidable (rkey asgs i p ≤ rkey asgs i q))

/-- Deterministic candidate ranking by a stable insertion sort on the key. -/
def rankCandidates (asgs : List Assignment) (i : ShiftInstance)
    (cands : List (Employee × ℚ)) : List (Employee × ℚ) :=
  List.insertionSort (rankRel asgs i) cands

def mkAssignment (i : ShiftInstance) (e : Employee) : Assignment :=
  { employeeId := e.id, templateId := i.templateId, date := i.date,
    startMin := i.startMin, endMin := i.endMin, hours := i.hours }

/-- Modelled from the spec: step 3 of the greedy Optimizer — walk the ranked
candidates, committing each one whose headroom and no-overlap constraints
still hold against the evolving assignment list, until `required_count`
commitments are made (spec section 4.5).  Returns the grown assignment
list and the committed `(employee, score)` pairs. -/
def commitLoop (i : ShiftInstance) :
    List (Employee × ℚ) → Nat → List Assignment → List Assignment × List (Employee × ℚ)
  | [], _, asgs => (asgs, [])
  | _ :: _, 0, asgs => (asgs, [])
  | p :: rest, r + 1, asgs =>
    if fitsHours asgs p.1 i && noClash asgs p.1.id i then
      ((commitLoop i rest r (asgs ++ [mkAssignment i p.1])).1,
        p :: (commitLoop i rest r (asgs ++ [mkAssignment i p.1])).2)
    else commitLoop i rest (r + 1) asgs

/-- Accumulator of one generation run: assignments so far, per-instance
"unassigned" warning markers (template id, date), and the running numerator
and denominator of `optimizer_score`. -/
structure GenState where
  assignments : List Assignment
  warnings : List (Nat × Nat)
  numer : ℚ
  denom : ℚ

def initState : GenState := ⟨[], [], 0, 0⟩

/-- The eligible employees of one instance, against the accumulated state. -/
def eligibleList (snap : Snapshot) (st : GenState) (i : ShiftInstance) : List Employee :=
  snap.employees.filter (fun e => eligibleB st.assignments e i)

/-- The scored, ranked candidate list of one instance. -/
def rankedList (snap : Snapshot) (scorer : Scorer) (st : GenState) (i : ShiftInstance) :
    List (Employee × ℚ) :=
  rankCandidates st.assignments i
    ((eligibleList snap st i).map (fun e => (e, scorer st.assignments e i)))

/-- The committed `(employee, score)` pairs of one instance. -/
def committedList (snap : Snapshot) (scorer : Scorer) (st : GenState) (i : ShiftInstance) :
    List (Employee × ℚ) :=
  (commitLoop i (rankedList snap scorer st i) i.requiredCount st.assignments).2

/-- Modelled from the spec: the per-instance body of the greedy Optimizer
(spec section 4.5, steps 2-4): compute eligibility, score and rank the
candidates, commit up to `required_count`, record an "unassigned" warning on
shortfall, and accumulate the `optimizer_score` fractions (committed score
sum over best-available score sum of the required slots). -/
def processInstance (snap : Snapshot) (scorer : Scorer) (st : GenState)
    (i : ShiftInstance) : GenState :=
  { assignments := (commitLoop i (rankedList snap scorer st i) i.requiredCount st.assignments).1
    warnings := st.warnings ++
      (if (committedList snap scorer st i).length < i.requiredCount then
        [(i.templateId, i.date)] else [])
    numer := st.numer + ((committedList snap scorer st i).map Prod.snd).sum
    denom := st.denom +
      (((rankedList snap scorer st i).take i.requiredCount).map Prod.snd).sum }

/-- Instance-processing key: ascending date/time, then descending
required-count (spec section 4.5, step 1). -/
def ikey (i : ShiftInstance) : Lex (Nat × Lex (Nat × Int)) :=
  toLex (i.date, toLex (i.startMin, -(i.requiredCount : Int)))

def instRel (i j : ShiftInstance) : Prop := ikey i ≤ ikey j

instance : DecidableRel instRel :=
  fun i j => inferInstanceAs (Decidable (ikey i ≤ ikey j))

def sortInstances (l : List ShiftInstance) : List ShiftInstance :=
  List.insertionSort instRel l

/-- The ordered instance list of one generation run. -/
def runInstances (snap : Snapshot) : List ShiftInstance :=
  sortInstances (expandInstances snap)

def maxHorizonDays : Nat := 366

/-- Modelled from the spec: the `GenerateSchedule` result contract
(spec section 6). -/
structure GenResult where
  success : Bool
  errors : List String
  warnings : List (Nat × Nat)
  assignments : List Assignment
  numAssignments : Nat
  numUnassignedShifts : Nat
  optimizerScore : ℚ

def finalState (snap : Snapshot) (scorer : Scorer) : GenState :=
  (runInstances snap).foldl (processInstance snap scorer) initState

/-- Modelled from the spec: `GenerateSchedule` — validate the date range, then
run the single-pass greedy Optimizer over the expanded, ordered instances
(spec sections 4.1-4.5 and 6).  Unfilled instances become warnings, never
errors; `optimizer_score` is the committed-score sum over the best-available
score sum (`0 / 0 = 0` when there are no scored slots). -/
def generate (snap : Snapshot) (scorer : Scorer) : GenResult :=
  if snap.endDate < snap.startDate then
    { success := false, errors := ["ValidationError: end_date before start_date"],
      warnings := [], assignments := [], numAssignments := 0, numUnassignedShifts := 0,
      optimizerScore := 0 }
  else if maxHorizonDays < snap.endDate + 1 - snap.startDate then
    { success := false, errors := ["ValidationError: date range exceeds maximum horizon"],
      warnings := [], assignments := [], numAssignments := 0, numUnassignedShifts := 0,
      optimizerScore := 0 }
  else
    let fin := finalState snap scorer
    { success := true, errors := [],
      warnings := fin.warnings, assignments := fin.assignments,
      numAssignments := fin.assignments.length,
      numUnassignedShifts := fin.warnings.length,
      optimizerScore := fin.numer / fin.denom }

/-- The (template id, date) pair identifying the `ShiftInstance` an
`Assignment` references. -/
def keyOf (a : Assignment) : Nat × Nat := (a.templateId, a.date)

def instKey (i : ShiftInstance) : Nat × Nat := (i.templateId, i.date)

/-- Number of assignments in a list referencing a given instance key. -/
def countKey (l : List Assignment) (k : Nat × Nat) : Nat :=
  (l.filter (fun a => keyOf a == k)).length

/-- No two assignments of the same employee have overlapping `[start, end)`
intervals. -/
def noConf (l : List Assignment) : Prop :=
  l.Pairwise (fun a b => a.employeeId = b.employeeId → asgOverlaps a b = false)

/-- The date range passes `GenerateSchedule` validation. -/
def validRange (snap : Snapshot) : Prop :=
  ¬ snap.endDate < snap.startDate ∧ ¬ maxHorizonDays < snap.endDate + 1 - snap.startDate

/-- Example fixture from spec section 8: "Morning", Monday 09:00-13:00,
two employees required. -/
def wTemplate : ShiftTemplate :=
  { id := 1, departmentId := 1, dayOfWeek := 0, startMin := 540, endMin := 780,
    durationHours := 4, requiredEmployees := 2, isActive := true }

def wEmpA : Employee := { id := 1, departmentId := 1, maxHoursPerWeek := 20, isActive := true }

def wEmpB : Employee := { id := 2, departmentId := 1, maxHoursPerWeek := 20, isActive := true }

def wEmpC : Employee := { id := 3, departmentId := 1, maxHoursPerWeek := 20, isActive := false }

/-- Example snapshot from spec section 8 over one Monday-to-Sunday week. -/
def wSnap : Snapshot :=
  { employees := [wEmpA, wEmpB, wEmpC], templates := [wTemplate],
    startDate := 0, endDate := 6, departmentIds := none }

/-- Snapshot with a single eligible employee for a two-slot instance, the
under-filled scenario of spec section 8. -/
def wShortSnap : Snapshot :=
  { employees := [wEmpA, wEmpC], templates := [wTemplate],
    startDate := 0, endDate := 6, departmentIds := none }

/-- The single shift instance both example snapshots expand to. -/
def wInst : ShiftInstance := instOfTemplate wTemplate 0

/-- A concrete constant scorer, trivially within `[0, 1]`. -/
def wScorer : Scorer := fun _ _ _ => 1

end Engine

namespace Lifecycle

/-- Modelled from the spec: the closed schedule lifecycle status enumeration
(spec sections 4.6 and 9). -/
inductive ScheduleStatus
  | draft
  | generating
  | generated
  | published
  | failed
deriving DecidableEq

/-- Modelled from the spec: the persisted `Schedule` fields that
`PublishSchedule` reads and writes (spec sections 3 and 6). -/
structure Schedule where
  id : Nat
  name : String
  status : ScheduleStatus
  publishedAt : Option Nat
deriving DecidableEq

/-- Modelled from the spec: `PublishSchedule` — publication is permitted only
from `generated`; on success the schedule becomes `published` with its
`published_at` timestamp fixed; otherwise the call fails with the
"not in generated state" error (spec sections 4.6 and 6). -/
def publishSchedule (now : Nat) (s : Schedule) : Except String Schedule :=
  match s.status with
  | .generated => .ok { s with status := .published, publishedAt := some now }
  | _ => .error "not in generated state"

/-- A schedule sitting in the `generated` state. -/
def wGenSchedule : Schedule :=
  { id := 1, name := "Week 1", status := .generated, publishedAt := none }

/-- A schedule still in `draft`. -/
def wDraftSchedule : Schedule :=
  { id := 2, name := "Week 2", status := .draft, publishedAt := none }

end Lifecycle

namespace Training

/-- Modelled from the spec: the two trainable model types (spec section 4.7). -/
inductive ModelType
  | preferencePredictor
  | conflictDetector
deriving DecidableEq

inductive TrainingStatus
  | running
  | completed
  | failed
deriving DecidableEq

/-- Modelled from the spec: one normalized historical assignment row
(employee id, shift attributes, acceptance signal; spec section 4.7). -/
structure HistoricalRow where
  employeeId : Nat
  dayOfWeek : Nat
  startMin : Nat
  accepted : Bool
deriving DecidableEq

/-- Modelled from the spec: the persisted `TrainingRecord` fields the training
claims read (spec section 3). -/
structure TrainingRecord where
  modelType : ModelType
  numSamples : Nat
  status : TrainingStatus
deriving DecidableEq

/-- Modelled from the spec: the `TrainModel` result contract (spec section 6). -/
structure TrainResult where
  success : Bool
  modelType : ModelType
  numSamples : Nat
  errors : List String
  record : TrainingRecord
deriving DecidableEq

/-- Modelled from the spec: the minimum-sample threshold; the spec fixes no
numeric value, only that one exists and that zero rows is below it. -/
def minTrainingSamples : Nat := 10

/-- Modelled from the spec: `TrainModel` — below the minimum sample count the
run fails with a `TrainingDataError` in `errors[]` and a `failed` training
record; otherwise the record completes (spec sections 4.7 and 8; the model
fitting and metrics of a successful run are outside the claims). -/
def trainModel (rows : List HistoricalRow) (mt : ModelType) : TrainResult :=
  if rows.length < minTrainingSamples then
    { success := false, modelType := mt, numSamples := rows.length,
      errors := ["TrainingDataError: insufficient training samples"],
      record := { modelType := mt, numSamples := rows.length, status := .failed } }
  else
    { success := true, modelType := mt, numSamples := rows.length, errors := [],
      record := { modelType := mt, numSamples := rows.length, status := .completed } }

end Training

namespace Api

/-- The `Assignment` row of the API client
(`src/unnamed/part_004`, interface `Assignment`): dates are ISO `YYYY-MM-DD`
strings and times are `HH:MM:SS` strings, so their lexicographic string order
is their chronological order. -/
structure Assignment where
  id : String
  scheduleId : String
  employeeId : String
  shiftDate : String
  startTime : String
  endTime : String
deriving DecidableEq

/-- Sort key of the `GetScheduleAssignments` ordering: date, then start time. -/
def sortKey (a : Assignment) : Lex (String × String) := toLex (a.shiftDate, a.startTime)

def listRel (a b : Assignment) : Prop := sortKey a ≤ sortKey b

instance : DecidableRel listRel :=
  fun a b => inferInstanceAs (Decidable (sortKey a ≤ sortKey b))

/-- Modelled from the spec: the backend `GetScheduleAssignments` — the stored
assignment rows of the schedule, ordered by date then start time by a stable
sort (spec section 6). -/
def getScheduleAssignments (stored : List Assignment) : List Assignment :=
  List.insertionSort listRel stored

/-- One step of the grouping `reduce` of `ScheduleDetail.tsx` (lines 91-98):
push the assignment onto its date's group, creating the group at first
sight; object string keys keep insertion order. -/
def groupStep (acc : List (String × List Assignment)) (a : Assignment) :
    List (String × List Assignment) :=
  if acc.any (fun g => g.1 == a.shiftDate) then
    acc.map (fun g => if g.1 == a.shiftDate then (g.1, g.2 ++ [a]) else g)
  else acc ++ [(a.shiftDate, [a])]

/-- The `assignmentsByDate` record of `ScheduleDetail.tsx` (lines 91-98). -/
def assignmentsByDate (l : List Assignment) : List (String × List Assignment) :=
  l.foldl groupStep []

/-- The `sortedDates` list of `ScheduleDetail.tsx` (line 100):
`Object.keys(assignmentsByDate).sort()`. -/
def sortedDates (l : List Assignment) : List String :=
  List.insertionSort (fun s t : String => s ≤ t) ((assignmentsByDate l).map Prod.fst)

/-- The group rendered for one date header. -/
def dateGroup (l : List Assignment) (d : String) : List Assignment :=
  (((assignmentsByDate l).find? (fun g => g.1 == d)).map Prod.snd).getD []

/-- All assignments the page displays, in display order. -/
def displayedAssignments (l : List Assignment) : List Assignment :=
  ((sortedDates l).map (dateGroup l)).flatten

end Api

namespace Form

def digitVal (c : Char) : Nat := c.toNat - 48

def digitsVal (cs : List Char) : Nat := cs.foldl (fun n c => n * 10 + digitVal c) 0

/-- The JavaScript whitespace set stripped by `String.prototype.trim` and
skipped by `parseFloat`: WhiteSpace (tab, line tabulation, form feed, space,
no-break space, zero-width no-break space and the Unicode space separators)
together with the line terminators. -/
def isJsWhitespace (c : Char) : Bool :=
  c == ' ' || c == '\t' || c == '\n' || c == '\r' || c == '\x0b' || c == '\x0c' ||
    c.toNat == 0xa0 || c.toNat == 0x1680 ||
    (decide (0x2000 ≤ c.toNat) && decide (c.toNat ≤ 0x200a)) ||
    c.toNat == 0x2028 || c.toNat == 0x2029 || c.toNat == 0x202f ||
    c.toNat == 0x205f || c.toNat == 0x3000 || c.toNat == 0xfeff

/-- Structural model of the JavaScript string `trim`: strip leading and
trailing JavaScript whitespace. -/
def trimStr (s : String) : String :=
  String.mk (((s.toList.dropWhile isJsWhitespace).reverse.dropWhile isJsWhitespace).reverse)

/-- A JavaScript number as produced by `parseFloat` on the form's inputs:
a finite value — kept as an exact rational, abstracting the rounding of the
IEEE-754 double representation — or an infinity; `none` at the call sites
models `NaN`. -/
inductive JsNumber
  | finite (q : ℚ)
  | posInfinity
  | negInfinity
deriving DecidableEq

/-- The strict `>` comparison of JavaScript numbers, as used by
`minHoursNum > maxHoursNum` in `handleSubmit`. -/
def jsGt : JsNumber → JsNumber → Bool
  | .finite a, .finite b => decide (b < a)
  | .finite _, .posInfinity => false
  | .finite _, .negInfinity => true
  | .posInfinity, .posInfinity => false
  | .posInfinity, _ => true
  | .negInfinity, _ => false

/-- Apply a `parseFloat` exponent suffix (optional sign, then digits) to a
parsed mantissa; when no exponent digit follows, the suffix is ignored, as in
JavaScript (`parseFloat('1e')` is `1`). -/
def expScale (mantissa : ℚ) (r : List Char) : ℚ :=
  let eneg : Bool := r.head? == some '-'
  let r2 := if r.head? == some '-' || r.head? == some '+' then r.tail else r
  let expDigits := r2.takeWhile Char.isDigit
  if expDigits.isEmpty then mantissa
  else if eneg then mantissa / ((10 : ℚ) ^ digitsVal expDigits)
  else mantissa * ((10 : ℚ) ^ digitsVal expDigits)

/-- The JavaScript `parseFloat` on the form's input strings: leading
whitespace and an optional sign, then either the literal `Infinity` or
decimal digits with an optional fractional part and an optional exponent
(`e` or `E`, optional sign, digits); the longest valid numeric prefix is
parsed and `none` models `NaN`. Finite values are exact rationals,
abstracting IEEE-754 double rounding. -/
def parseFloat (s : String) : Option JsNumber :=
  let cs := s.toList.dropWhile isJsWhitespace
  let neg : Bool := cs.head? == some '-'
  let cs2 := if cs.head? == some '-' || cs.head? == some '+' then cs.tail else cs
  if "Infinity".toList.isPrefixOf cs2 then
    some (if neg then .negInfinity else .posInfinity)
  else
    let intPart := cs2.takeWhile Char.isDigit
    let rest1 := cs2.dropWhile Char.isDigit
    let fracPart :=
      match rest1 with
      | '.' :: r => r.takeWhile Char.isDigit
      | _ => []
    let rest2 :=
      match rest1 with
      | '.' :: r => r.dropWhile Char.isDigit
      | _ => rest1
    if intPart.isEmpty && fracPart.isEmpty then none
    else
      let mantissa : ℚ := (digitsVal intPart : ℚ) +
        (digitsVal fracPart : ℚ) / ((10 : ℚ) ^ fracPart.length)
      let scaled : ℚ :=
        match rest2 with
        | 'e' :: r => expScale mantissa r
        | 'E' :: r => expScale mantissa r
        | _ => mantissa
      some (.finite (if neg then -scaled else scaled))

/-- The form state of `EmployeeForm.tsx`: the controlled input strings and the
active checkbox. -/
structure EmployeeFormState where
  firstName : String
  lastName : String
  email : String
  phone : String
  departmentId : String
  employmentType : String
  hireDate : String
  maxHours : String
  minHours : String
  isActive : Bool
deriving DecidableEq

/-- The `data` payload built by `handleSubmit` (`EmployeeForm.tsx`,
lines 126-137). -/
structure EmployeeData where
  firstName : String
  lastName : String
  email : String
  phone : Option String
  departmentId : String
  employmentType : String
  hireDate : String
  maxHoursPerWeek : JsNumber
  minHoursPerWeek : JsNumber
  isActive : Bool
deriving DecidableEq

/-- The observable outcome of one `handleSubmit` run: either an error message
is set and no API mutation fires, or exactly one of the two mutations is
invoked with the payload. -/
inductive SubmitAction
  | setValidationError (msg : String)
  | createEmployee (data : EmployeeData)
  | updateEmployee (id : String) (data : EmployeeData)
deriving DecidableEq

def payload (st : EmployeeFormState) (mx mn : JsNumber) : EmployeeData :=
  { firstName := trimStr st.firstName, lastName := trimStr st.lastName,
    email := trimStr st.email,
    phone := if trimStr st.phone = "" then none else some (trimStr st.phone),
    departmentId := st.departmentId, employmentType := st.employmentType,
    hireDate := st.hireDate, maxHoursPerWeek := mx, minHoursPerWeek := mn,
    isActive := st.isActive }

/-- Embedded from `EmployeeForm.handleSubmit` (`EmployeeForm.tsx`,
lines 104-144): required-fields check, numeric parse check, min/max check,
then the create or update mutation depending on whether an employee is being
edited. -/
def handleSubmit (employee : Option String) (st : EmployeeFormState) : SubmitAction :=
  if trimStr st.firstName = "" ∨ trimStr st.lastName = "" ∨ trimStr st.email = "" ∨
      st.departmentId = "" ∨ st.hireDate = "" then
    .setValidationError "Please fill in all required fields"
  else
    match parseFloat st.maxHours, parseFloat st.minHours with
    | none, _ => .setValidationError "Hours must be valid numbers"
    | some _, none => .setValidationError "Hours must be valid numbers"
    | some mx, some mn =>
      if jsGt mn mx then
        .setValidationError "Minimum hours cannot be greater than maximum hours"
      else
        match employee with
        | some id => .updateEmployee id (payload st mx mn)
        | none => .createEmployee (payload st mx mn)

/-- Concrete form state with min hours above max hours and an empty first
name. -/
def ceFormState : EmployeeFormState :=
  { firstName := "", lastName := "Doe", email := "jane@example.com",
    phone := "", departmentId := "d1", employmentType := "full_time",
    hireDate := "2024-01-01", maxHours := "2", minHours := "5",
    isActive := true }

/-- The same form state with the first name filled in. -/
def wFormState : EmployeeFormState :=
  { ceFormState with firstName := "Jane" }

end Form

namespace Http

/-- A parsed JSON response body as far as `APIClient.request` inspects it:
the optional `detail` field. -/
structure JsonBody where
  detail : Option String
deriving DecidableEq

/-- The parts of a `fetch` response that `APIClient.request` reads: `ok`,
`status`, the `content-length` header, and the JSON parse of the body
(`none` when the body is not valid JSON, which makes `response.json()`
reject). -/
structure HttpResponse where
  ok : Bool
  status : Nat
  contentLength : Option String
  body : Option JsonBody
deriving DecidableEq

/-- The observable outcome of `APIClient.request`: a thrown `Error` message,
an `undefined` return, or the parsed JSON body. -/
inductive RequestOutcome
  | thrown (msg : String)
  | returnedUndefined
  | returnedJson (body : JsonBody)
deriving DecidableEq

/-- The message thrown on a non-ok response (`src/unnamed/part_004`,
lines 186-189): the parsed body's truthy `detail`, the catch fallback
`An error occurred` when the body does not parse, otherwise `HTTP <status>`. -/
def errorMessage (r : HttpResponse) : String :=
  match r.body with
  | none => "An error occurred"
  | some b =>
    match b.detail with
    | some d => if d = "" then "HTTP " ++ toString r.status else d
    | none => "HTTP " ++ toString r.status

/-- Embedded from `APIClient.request` (`src/unnamed/part_004`,
lines 173-197). -/
def request (r : HttpResponse) : RequestOutcome :=
  if r.ok = false then .thrown (errorMessage r)
  else if r.status = 204 ∨ r.contentLength = some "0" then .returnedUndefined
  else
    match r.body with
    | some b => .returnedJson b
    | none => .thrown "SyntaxError: response body is not valid JSON"

/-- The behaviour of `APIClient.request` as stated by the amended claim: on a
non-ok response it throws with the body's non-empty `detail` when the body
parses and carries one, with `An error occurred` when the body does not parse,
and with `HTTP <status>` otherwise; on an ok response it returns undefined for
status 204 or a '0' content-length header, returns the parsed JSON body when
the body parses, and throws a JSON parse error otherwise. -/
def requestBehavior (r : HttpResponse) : RequestOutcome :=
  match r.ok, r.body with
  | false, none => .thrown "An error occurred"
  | false, some b =>
    match b.detail with
    | some d => .thrown (if d = "" then "HTTP " ++ toString r.status else d)
    | none => .thrown ("HTTP " ++ toString r.status)
  | true, bd =>
    if r.status = 204 ∨ r.contentLength = some "0" then .returnedUndefined
    else
      match bd with
      | some b => .returnedJson b
      | none => .thrown "SyntaxError: response body is not valid JSON"

/-- An ok response whose body is not valid JSON. -/
def ceResponse : HttpResponse :=
  { ok := true, status := 200, contentLength := some "17", body := none }

end Http

namespace Lifecycle

/-- C6: `PublishSchedule(schedule_id)` fails with an error for every schedule
whose status is not `generated`, and succeeds — returning the schedule, now
`published` with a fixed `published_at` — for every schedule whose status is
`generated`. -/
theorem publish_only_from_generated (now : Nat) (s : Schedule) :
    (s.status ≠ ScheduleStatus.generated →
      publishSchedule now s = Except.error "not in generated state") ∧
    (s.status = ScheduleStatus.generated →
      publishSchedule now s =
        Except.ok { s with status := ScheduleStatus.published, publishedAt := some now }) := by
  obtain ⟨sid, sname, sstatus, spub⟩ := s
  cases sstatus <;> simp [publishSchedule]

/-- C6 witness: publishing a draft schedule fails, publishing a generated one
succeeds with the fixed publish timestamp. -/
theorem publish_only_from_generated_witness :
    (wDraftSchedule.status ≠ ScheduleStatus.generated ∧
      publishSchedule 5 wDraftSchedule = Except.error "not in generated state") ∧
    (wGenSchedule.status = ScheduleStatus.generated ∧
      publishSchedule 5 wGenSchedule =
        Except.ok { wGenSchedule with
          status := ScheduleStatus.published, publishedAt := some 5 }) :=
  ⟨⟨by decide, (publish_only_from_generated 5 wDraftSchedule).1 (by decide)⟩,
    ⟨rfl, (publish_only_from_generated 5 wGenSchedule).2 rfl⟩⟩

end Lifecycle

namespace Training

/-- C7: every `TrainModel` call with fewer historical rows than the minimum
sample threshold (including zero rows) yields `success = false` with a
`TrainingDataError` message in `errors[]`, and the training record of the run
has status `failed`. -/
theorem train_below_threshold_fails (rows : List HistoricalRow) (mt : ModelType)
    (h : rows.length < minTrainingSamples) :
    (trainModel rows mt).success = false ∧
    "TrainingDataError: insufficient training samples" ∈ (trainModel rows mt).errors ∧
    (trainModel rows mt).record.status = TrainingStatus.failed := by
  simp [trainModel, h]

/-- C7 witness: training on zero rows fails with a `TrainingDataError` and a
`failed` record. -/
theorem train_below_threshold_fails_witness :
    ([] : List HistoricalRow).length < minTrainingSamples ∧
    ((trainModel [] ModelType.preferencePredictor).success = false ∧
      "TrainingDataError: insufficient training samples" ∈
        (trainModel [] ModelType.preferencePredictor).errors ∧
      (trainModel [] ModelType.preferencePredictor).record.status =
        TrainingStatus.failed) :=
  ⟨by decide, train_below_threshold_fails [] ModelType.preferencePredictor (by decide)⟩

end Training

namespace Http

/-- C10 counterexample: the claim's "throws if and only if the response is not
ok" fails on the code — an ok 200 response whose body is not valid JSON makes
`request` throw the `response.json()` parse error. -/
theorem request_throws_on_ok_unparseable_body :
    request ceResponse = RequestOutcome.thrown "SyntaxError: response body is not valid JSON" ∧
    ceResponse.ok = true :=
  ⟨rfl, rfl⟩

/-- C10 (amended): `APIClient.request` throws on a non-ok response — with the
body's non-empty `detail` when the body parses and carries one, with
`An error occurred` when the body does not parse, otherwise with
`HTTP <status>` — and on an ok response returns undefined when the status is
204 or the content-length header is '0', returns the parsed JSON body when the
body parses, and throws the JSON parse error otherwise. -/
theorem request_matches_amended_behavior (r : HttpResponse) :
    request r = requestBehavior r := by
  obtain ⟨rok, rstatus, rcl, rbody⟩ := r
  cases rok <;> cases rbody <;>
    simp [request, requestBehavior, errorMessage]
  case false.some b =>
    cases b.detail <;> rfl

end Http

namespace Form

unseal Rat.add Rat.mul Rat.sub Rat.inv in
/-- C9 counterexample: a submission whose parsed minimum hours (5) exceed the
parsed maximum hours (2) but whose first name is empty is rejected by the
earlier required-fields check, not with the claimed min/max error message. -/
theorem employee_form_required_fields_shadow_min_max :
    parseFloat ceFormState.minHours = some (JsNumber.finite 5) ∧
    parseFloat ceFormState.maxHours = some (JsNumber.finite 2) ∧
    jsGt (JsNumber.finite 5) (JsNumber.finite 2) = true ∧
    handleSubmit none ceFormState =
      SubmitAction.setValidationError "Please fill in all required fields" ∧
    handleSubmit none ceFormState ≠
      SubmitAction.setValidationError "Minimum hours cannot be greater than maximum hours" := by
  refine ⟨?_, ?_, ?_, ?_, ?_⟩ <;> decide

/-- C9 (amended): for every submission in which all required fields are
non-empty and the parsed minimum hours exceed the parsed maximum hours,
`handleSubmit` resolves to the validation error "Minimum hours cannot be
greater than maximum hours" and invokes neither the create-employee nor the
update-employee mutation. -/
theorem employee_form_min_above_max_rejected (employee : Option String)
    (st : EmployeeFormState) (mx mn : JsNumber)
    (h1 : ¬ trimStr st.firstName = "") (h2 : ¬ trimStr st.lastName = "")
    (h3 : ¬ trimStr st.email = "") (h4 : ¬ st.departmentId = "")
    (h5 : ¬ st.hireDate = "")
    (hmx : parseFloat st.maxHours = some mx) (hmn : parseFloat st.minHours = some mn)
    (hgt : jsGt mn mx = true) :
    handleSubmit employee st =
      SubmitAction.setValidationError "Minimum hours cannot be greater than maximum hours" := by
  simp [handleSubmit, h1, h2, h3, h4, h5, hmx, hmn, hgt]

unseal Rat.add Rat.mul Rat.sub Rat.inv in
/-- C9 witness: a fully filled form with minimum hours 5 and maximum hours 2
resolves to the min/max validation error. -/
theorem employee_form_min_above_max_rejected_witness :
    (¬ trimStr wFormState.firstName = "" ∧ ¬ trimStr wFormState.lastName = "" ∧
      ¬ trimStr wFormState.email = "" ∧ ¬ wFormState.departmentId = "" ∧
      ¬ wFormState.hireDate = "" ∧
      parseFloat wFormState.maxHours = some (JsNumber.finite 2) ∧
      parseFloat wFormState.minHours = some (JsNumber.finite 5) ∧
      jsGt (JsNumber.finite 5) (JsNumber.finite 2) = true) ∧
    handleSubmit none wFormState =
      SubmitAction.setValidationError "Minimum hours cannot be greater than maximum hours" :=
  ⟨⟨by decide, by decide, by decide, by decide, by decide, by decide, by decide, by decide⟩,
    employee_form_min_above_max_rejected none wFormState (JsNumber.finite 2)
      (JsNumber.finite 5) (by decide) (by decide) (by decide) (by decide) (by decide)
      (by decide) (by decide) (by decide)⟩

end Form

namespace Engine

theorem commitLoop_fst (i : ShiftInstance) :
    ∀ (cs : List (Employee × ℚ)) (r : Nat) (asgs : List Assignment),
      (commitLoop i cs r asgs).1 =
        asgs ++ (commitLoop i cs r asgs).2.map (fun p => mkAssignment i p.1)
  | [], r, asgs => by simp [commitLoop]
  | p :: rest, 0, asgs => by simp [commitLoop]
  | p :: rest, r + 1, asgs => by
    by_cases h : (fitsHours asgs p.1 i && noClash asgs p.1.id i) = true
    · simp only [commitLoop, if_pos h, List.map_cons]
      rw [commitLoop_fst i rest r (asgs ++ [mkAssignment i p.1])]
      simp
    · simp only [commitLoop, if_neg h]
      exact commitLoop_fst i rest (r + 1) asgs

theorem commitLoop_length_le (i : ShiftInstance) :
    ∀ (cs : List (Employee × ℚ)) (r : Nat) (asgs : List Assignment),
      (commitLoop i cs r asgs).2.length ≤ r
  | [], r, asgs => by simp [commitLoop]
  | p :: rest, 0, asgs => by simp [commitLoop]
  | p :: rest, r + 1, asgs => by
    by_cases h : (fitsHours asgs p.1 i && noClash asgs p.1.id i) = true
    · simp only [commitLoop, if_pos h, List.length_cons]
      exact Nat.succ_le_succ (commitLoop_length_le i rest r _)
    · simp only [commitLoop, if_neg h]
      exact commitLoop_length_le i rest (r + 1) asgs

theorem commitLoop_sublist (i : ShiftInstance) :
    ∀ (cs : List (Employee × ℚ)) (r : Nat) (asgs : List Assignment),
      (commitLoop i cs r asgs).2.Sublist cs
  | [], r, asgs => by simp [commitLoop]
  | p :: rest, 0, asgs => by simp [commitLoop]
  | p :: rest, r + 1, asgs => by
    by_cases h : (fitsHours asgs p.1 i && noClash asgs p.1.id i) = true
    · simp only [commitLoop, if_pos h]
      exact (commitLoop_sublist i rest r _).cons₂ p
    · simp only [commitLoop, if_neg h]
      exact (commitLoop_sublist i rest (r + 1) asgs).cons p

theorem noClash_protects (asgs : List Assignment) (e : Employee) (i : ShiftInstance)
    (h : noClash asgs e.id i = true) :
    ∀ a ∈ asgs, a.employeeId = (mkAssignment i e).employeeId →
      asgOverlaps a (mkAssignment i e) = false := by
  intro a ha heq
  have hall := List.all_eq_true.mp h a ha
  have hbeq : (a.employeeId == e.id) = true := beq_iff_eq.mpr heq
  rw [hbeq] at hall
  simp only [Bool.not_true, Bool.false_or, Bool.not_eq_eq_eq_not, Bool.not_true] at hall
  simpa [asgOverlaps, asgSliceStart, asgSliceEnd, mkAssignment, instSliceStart,
    instSliceEnd] using hall

theorem noConf_append_new (asgs : List Assignment) (e : Employee) (i : ShiftInstance)
    (hP : noConf asgs) (h : noClash asgs e.id i = true) :
    noConf (asgs ++ [mkAssignment i e]) := by
  rw [noConf, List.pairwise_append]
  refine ⟨hP, List.pairwise_singleton _ _, ?_⟩
  intro a ha b hb
  have hb1 : b = mkAssignment i e := by simpa using hb
  subst hb1
  exact noClash_protects asgs e i h a ha

theorem commitLoop_noConf (i : ShiftInstance) :
    ∀ (cs : List (Employee × ℚ)) (r : Nat) (asgs : List Assignment),
      noConf asgs → noConf (commitLoop i cs r asgs).1
  | [], r, asgs => by intro h; simpa [commitLoop] using h
  | p :: rest, 0, asgs => by intro h; simpa [commitLoop] using h
  | p :: rest, r + 1, asgs => by
    intro hP
    by_cases h : (fitsHours asgs p.1 i && noClash asgs p.1.id i) = true
    · simp only [commitLoop, if_pos h]
      have hcl : noClash asgs p.1.id i = true := by
        rw [Bool.and_eq_true] at h
        exact h.2
      exact commitLoop_noConf i rest r _ (noConf_append_new asgs p.1 i hP hcl)
    · simp only [commitLoop, if_neg h]
      exact commitLoop_noConf i rest (r + 1) asgs hP

theorem processInstance_noConf (snap : Snapshot) (scorer : Scorer) (st : GenState)
    (i : ShiftInstance) (hP : noConf st.assignments) :
    noConf (processInstance snap scorer st i).assignments :=
  commitLoop_noConf i _ _ _ hP

theorem foldl_noConf (snap : Snapshot) (scorer : Scorer) :
    ∀ (insts : List ShiftInstance) (st : GenState), noConf st.assignments →
      noConf ((insts.foldl (processInstance snap scorer) st).assignments)
  | [], _ => fun h => h
  | i :: rest, st => fun h =>
    foldl_noConf snap scorer rest (processInstance snap scorer st i)
      (processInstance_noConf snap scorer st i h)

/-- C1: in every generated schedule, no two assignments of the same employee
have overlapping `[start, end)` intervals. -/
theorem generated_assignments_never_overlap (snap : Snapshot) (scorer : Scorer) :
    noConf (generate snap scorer).assignments := by
  by_cases h1 : snap.endDate < snap.startDate
  · simp [generate, h1, noConf]
  by_cases h2 : maxHorizonDays < snap.endDate + 1 - snap.startDate
  · simp [generate, h1, h2, noConf]
  · simpa [generate, h1, h2] using
      foldl_noConf snap scorer (runInstances snap) initState List.Pairwise.nil

/-- C2: generation is deterministic — two runs over snapshots with the same
employees, the same templates, the same date range and the same department
restriction, under the same scorer variant, produce identical results, in
particular identical assignment sets. -/
theorem generation_deterministic (s1 s2 : Snapshot) (scorer : Scorer)
    (hemp : s1.employees = s2.employees) (htem : s1.templates = s2.templates)
    (hstart : s1.startDate = s2.startDate) (hend : s1.endDate = s2.endDate)
    (hdept : s1.departmentIds = s2.departmentIds) :
    (generate s1 scorer).assignments = (generate s2 scorer).assignments := by
  obtain ⟨e1, t1, sd1, ed1, d1⟩ := s1
  obtain ⟨e2, t2, sd2, ed2, d2⟩ := s2
  cases hemp; cases htem; cases hstart; cases hend; cases hdept
  rfl

/-- C2 witness: re-running generation on the unchanged example snapshot under
the baseline-like constant scorer yields the identical assignment set. -/
theorem generation_deterministic_witness :
    (wSnap.employees = wSnap.employees ∧ wSnap.templates = wSnap.templates ∧
      wSnap.startDate = wSnap.startDate ∧ wSnap.endDate = wSnap.endDate ∧
      wSnap.departmentIds = wSnap.departmentIds) ∧
    (generate wSnap wScorer).assignments = (generate wSnap wScorer).assignments :=
  ⟨⟨rfl, rfl, rfl, rfl, rfl⟩,
    generation_deterministic wSnap wSnap wScorer rfl rfl rfl rfl rfl⟩

end Engine

namespace Engine

theorem keyOf_mkAssignment (i : ShiftInstance) (e : Employee) :
    keyOf (mkAssignment i e) = instKey i := rfl

theorem countKey_append (l1 l2 : List Assignment) (k : Nat × Nat) :
    countKey (l1 ++ l2) k = countKey l1 k + countKey l2 k := by
  simp [countKey, List.filter_append]

theorem countKey_cons (a : Assignment) (l : List Assignment) (k : Nat × Nat) :
    countKey (a :: l) k = (if keyOf a = k then 1 else 0) + countKey l k := by
  by_cases h : keyOf a = k
  · simp [countKey, List.filter_cons, h, Nat.add_comm]
  · simp [countKey, List.filter_cons, h, Nat.add_comm]

theorem countKey_map_mk (i : ShiftInstance) (cs : List (Employee × ℚ)) (k : Nat × Nat) :
    countKey (cs.map (fun p => mkAssignment i p.1)) k =
      if instKey i = k then cs.length else 0 := by
  induction cs with
  | nil => by_cases hk : instKey i = k <;> simp [countKey, hk]
  | cons p rest ih =>
    rw [List.map_cons, countKey_cons, ih, keyOf_mkAssignment]
    by_cases hk : instKey i = k
    · simp [hk]
      omega
    · simp [hk]

theorem processInstance_assignments (snap : Snapshot) (scorer : Scorer) (st : GenState)
    (i : ShiftInstance) :
    (processInstance snap scorer st i).assignments =
      st.assignments ++ (committedList snap scorer st i).map (fun p => mkAssignment i p.1) :=
  commitLoop_fst i (rankedList snap scorer st i) i.requiredCount st.assignments

theorem processInstance_warnings (snap : Snapshot) (scorer : Scorer) (st : GenState)
    (i : ShiftInstance) :
    (processInstance snap scorer st i).warnings =
      st.warnings ++
        (if (committedList snap scorer st i).length < i.requiredCount then
          [(i.templateId, i.date)] else []) := rfl

theorem processInstance_countKey (snap : Snapshot) (scorer : Scorer) (st : GenState)
    (i : ShiftInstance) (k : Nat × Nat) :
    countKey (processInstance snap scorer st i).assignments k =
      countKey st.assignments k +
        (if instKey i = k then (committedList snap scorer st i).length else 0) := by
  rw [processInstance_assignments, countKey_append, countKey_map_mk]

theorem committedList_length_le (snap : Snapshot) (scorer : Scorer) (st : GenState)
    (i : ShiftInstance) :
    (committedList snap scorer st i).length ≤ i.requiredCount :=
  commitLoop_length_le i (rankedList snap scorer st i) i.requiredCount st.assignments

theorem foldl_warnings_mono (snap : Snapshot) (scorer : Scorer) :
    ∀ (insts : List ShiftInstance) (st : GenState) (w : Nat × Nat), w ∈ st.warnings →
      w ∈ (insts.foldl (processInstance snap scorer) st).warnings
  | [], _, _ => fun h => h
  | i :: rest, st, w => fun h =>
    foldl_warnings_mono snap scorer rest (processInstance snap scorer st i) w
      (by rw [processInstance_warnings]; exact List.mem_append_left _ h)

theorem foldl_countKey_stable (snap : Snapshot) (scorer : Scorer) :
    ∀ (insts : List ShiftInstance) (st : GenState) (k : Nat × Nat),
      (∀ i ∈ insts, instKey i ≠ k) →
      countKey ((insts.foldl (processInstance snap scorer) st).assignments) k =
        countKey st.assignments k
  | [], _, _ => fun _ => rfl
  | i :: rest, st, k => fun h => by
    rw [List.foldl_cons,
      foldl_countKey_stable snap scorer rest (processInstance snap scorer st i) k
        (fun j hj => h j (List.mem_cons_of_mem i hj)),
      processInstance_countKey, if_neg (h i (List.mem_cons_self i rest))]
    omega

theorem foldl_count_main (snap : Snapshot) (scorer : Scorer) :
    ∀ (insts : List ShiftInstance) (st : GenState),
      ((insts.map instKey).Nodup) →
      (∀ i ∈ insts, countKey st.assignments (instKey i) = 0) →
      ∀ i ∈ insts,
        countKey ((insts.foldl (processInstance snap scorer) st).assignments) (instKey i) ≤
            i.requiredCount ∧
          (countKey ((insts.foldl (processInstance snap scorer) st).assignments) (instKey i) <
              i.requiredCount →
            (i.templateId, i.date) ∈ (insts.foldl (processInstance snap scorer) st).warnings)
  | [], _ => fun _ _ i hi => absurd hi (List.not_mem_nil i)
  | j :: rest, st => fun hnd h0 i hi => by
    rw [List.map_cons, List.nodup_cons] at hnd
    rcases List.mem_cons.mp hi with rfl | hi2
    · have hne : ∀ x ∈ rest, instKey x ≠ instKey i := by
        intro x hx hcontra
        exact hnd.1 (hcontra ▸ List.mem_map_of_mem instKey hx)
      rw [List.foldl_cons]
      have hst := foldl_countKey_stable snap scorer rest
        (processInstance snap scorer st i) (instKey i) hne
      have hc : countKey (processInstance snap scorer st i).assignments (instKey i) =
          (committedList snap scorer st i).length := by
        rw [processInstance_countKey, h0 i (List.mem_cons_self i rest), if_pos rfl]
        omega
      constructor
      · rw [hst, hc]
        exact committedList_length_le snap scorer st i
      · intro hlt
        rw [hst, hc] at hlt
        refine foldl_warnings_mono snap scorer rest _ _ ?_
        rw [processInstance_warnings, if_pos hlt]
        exact List.mem_append_right _ (List.mem_singleton_self _)
    · rw [List.foldl_cons]
      refine foldl_count_main snap scorer rest (processInstance snap scorer st j) hnd.2 ?_ i hi2
      intro x hx
      have hne : instKey j ≠ instKey x := by
        intro hcontra
        exact hnd.1 (hcontra ▸ List.mem_map_of_mem instKey hx)
      rw [processInstance_countKey, h0 x (List.mem_cons_of_mem j hx), if_neg hne]

theorem datesInRange_nodup (s e : Nat) : (datesInRange s e).Nodup := by
  refine List.Nodup.map ?_ (List.nodup_range _)
  intro a b hab
  have hab2 : s + a = s + b := hab
  omega

theorem expandTemplate_key_fst (t : ShiftTemplate) (s e : Nat) :
    ∀ x ∈ (expandTemplate t s e).map instKey, x.1 = t.id := by
  intro x hx
  rcases List.mem_map.mp hx with ⟨inst, hinst, rfl⟩
  unfold expandTemplate at hinst
  by_cases ha : t.isActive
  · rw [if_pos ha] at hinst
    rcases List.mem_map.mp hinst with ⟨d, _, rfl⟩
    rfl
  · rw [if_neg ha] at hinst
    simp at hinst

theorem expandTemplate_keys_nodup (t : ShiftTemplate) (s e : Nat) :
    ((expandTemplate t s e).map instKey).Nodup := by
  unfold expandTemplate
  by_cases ha : t.isActive
  · rw [if_pos ha, List.map_map]
    refine List.Nodup.map ?_ ((datesInRange_nodup s e).filter _)
    intro a b hab
    simpa [instKey, instOfTemplate] using hab
  · rw [if_neg ha]
    exact List.nodup_nil

theorem expandInstances_keys_nodup (snap : Snapshot)
    (h : (snap.templates.map ShiftTemplate.id).Nodup) :
    ((expandInstances snap).map instKey).Nodup := by
  have hsel : ((selectedTemplates snap).map ShiftTemplate.id).Nodup :=
    h.sublist (List.Sublist.map _ (List.filter_sublist _))
  rw [expandInstances, List.map_flatten, List.map_map]
  rw [List.nodup_flatten]
  constructor
  · intro l hl
    rcases List.mem_map.mp hl with ⟨t, _, rfl⟩
    exact expandTemplate_keys_nodup t snap.startDate snap.endDate
  · rw [List.pairwise_map]
    have hpw : (selectedTemplates snap).Pairwise (fun t u => t.id ≠ u.id) := by
      unfold List.Nodup at hsel
      rw [List.pairwise_map] at hsel
      exact hsel
    refine hpw.imp ?_
    intro t u hne x hxt hxu
    have h1 : x.1 = t.id := expandTemplate_key_fst t _ _ x hxt
    have h2 : x.1 = u.id := expandTemplate_key_fst u _ _ x hxu
    exact hne (h1 ▸ h2)

theorem runInstances_keys_nodup (snap : Snapshot)
    (h : (snap.templates.map ShiftTemplate.id).Nodup) :
    ((runInstances snap).map instKey).Nodup := by
  have hperm : List.Perm (sortInstances (expandInstances snap)) (expandInstances snap) :=
    List.perm_insertionSort _ _
  exact ((hperm.map instKey).nodup_iff).mpr (expandInstances_keys_nodup snap h)

end Engine

namespace Engine

/-- C3: for every shift instance produced in a generation, the number of
assignments referencing that instance is at most the instance's required
employee count (template ids are unique, as in master data). -/
theorem instance_capacity_respected (snap : Snapshot) (scorer : Scorer)
    (hids : (snap.templates.map ShiftTemplate.id).Nodup)
    (i : ShiftInstance) (hi : i ∈ runInstances snap) :
    countKey (generate snap scorer).assignments (instKey i) ≤ i.requiredCount := by
  by_cases h1 : snap.endDate < snap.startDate
  · simp [generate, h1, countKey]
  by_cases h2 : maxHorizonDays < snap.endDate + 1 - snap.startDate
  · simp [generate, h1, h2, countKey]
  · have hle := (foldl_count_main snap scorer (runInstances snap) initState
      (runInstances_keys_nodup snap hids) (fun _ _ => rfl) i hi).1
    simpa [generate, h1, h2, finalState] using hle

unseal Rat.add Rat.mul Rat.sub Rat.inv in
/-- C3 witness: in the generated example schedule the single Morning instance
receives at most its two required assignments. -/
theorem instance_capacity_respected_witness :
    ((wSnap.templates.map ShiftTemplate.id).Nodup ∧ wInst ∈ runInstances wSnap) ∧
    countKey (generate wSnap wScorer).assignments (instKey wInst) ≤ wInst.requiredCount :=
  ⟨⟨by decide, by decide⟩,
    instance_capacity_respected wSnap wScorer (by decide) wInst (by decide)⟩

/-- C5: an instance left with fewer assignments than its required count gets
an "unassigned" warning recorded for it, and the generation run still returns
`success = true` — an under-filled instance never fails the run. -/
theorem unfilled_instance_warns_not_fails (snap : Snapshot) (scorer : Scorer)
    (hids : (snap.templates.map ShiftTemplate.id).Nodup)
    (hv : validRange snap)
    (i : ShiftInstance) (hi : i ∈ runInstances snap)
    (hshort : countKey (generate snap scorer).assignments (instKey i) < i.requiredCount) :
    (i.templateId, i.date) ∈ (generate snap scorer).warnings ∧
      (generate snap scorer).success = true := by
  obtain ⟨h1, h2⟩ := hv
  have hmain := (foldl_count_main snap scorer (runInstances snap) initState
      (runInstances_keys_nodup snap hids) (fun _ _ => rfl) i hi).2
  refine ⟨?_, by simp [generate, h1, h2]⟩
  have hlt : countKey
      (((runInstances snap).foldl (processInstance snap scorer) initState).assignments)
      (instKey i) < i.requiredCount := by
    simpa [generate, h1, h2, finalState] using hshort
  simpa [generate, h1, h2, finalState] using hmain hlt

unseal Rat.add Rat.mul Rat.sub Rat.inv in
/-- C5 witness: with a single eligible employee for the two-slot Morning
instance, the run commits one assignment, records the unassigned warning for
that instance, and still succeeds. -/
theorem unfilled_instance_warns_not_fails_witness :
    ((wShortSnap.templates.map ShiftTemplate.id).Nodup ∧ validRange wShortSnap ∧
      wInst ∈ runInstances wShortSnap ∧
      countKey (generate wShortSnap wScorer).assignments (instKey wInst) <
        wInst.requiredCount) ∧
    ((wInst.templateId, wInst.date) ∈ (generate wShortSnap wScorer).warnings ∧
      (generate wShortSnap wScorer).success = true) :=
  ⟨⟨by decide, ⟨by decide, by decide⟩, by decide, by decide⟩,
    unfilled_instance_warns_not_fails wShortSnap wScorer (by decide) ⟨by decide, by decide⟩
      wInst (by decide) (by decide)⟩

end Engine

namespace Engine

theorem rankRel_imp_snd_le (asgs : List Assignment) (i : ShiftInstance)
    (p q : Employee × ℚ) (h : rankRel asgs i p q) : q.2 ≤ p.2 := by
  rw [rankRel, rkey, rkey] at h
  rcases (Prod.Lex.le_iff _ _).mp h with hlt | ⟨heq, _⟩
  · have : -p.2 < -q.2 := hlt
    linarith
  · have : -p.2 = -q.2 := heq
    linarith

theorem rankCandidates_sorted (asgs : List Assignment) (i : ShiftInstance)
    (cands : List (Employee × ℚ)) :
    (rankCandidates asgs i cands).Sorted (rankRel asgs i) := by
  haveI : IsTotal (Employee × ℚ) (rankRel asgs i) := ⟨fun p q => le_total _ _⟩
  haveI : IsTrans (Employee × ℚ) (rankRel asgs i) := ⟨fun _ _ _ h1 h2 => le_trans h1 h2⟩
  exact List.sorted_insertionSort _ _

theorem rankedList_pairwise_desc (snap : Snapshot) (scorer : Scorer) (st : GenState)
    (i : ShiftInstance) :
    (rankedList snap scorer st i).Pairwise (fun p q => q.2 ≤ p.2) :=
  (rankCandidates_sorted st.assignments i _).imp
    (fun h => rankRel_imp_snd_le st.assignments i _ _ h)

theorem rankedList_mem_bounds (snap : Snapshot) (scorer : Scorer) (st : GenState)
    (i : ShiftInstance)
    (hs : ∀ (asgs : List Assignment) (e : Employee) (j : ShiftInstance),
      0 ≤ scorer asgs e j ∧ scorer asgs e j ≤ 1) :
    ∀ x ∈ rankedList snap scorer st i, 0 ≤ x.2 ∧ x.2 ≤ 1 := by
  intro x hx
  rw [rankedList, rankCandidates, List.mem_insertionSort] at hx
  rcases List.mem_map.mp hx with ⟨e, _, rfl⟩
  exact hs st.assignments e i

theorem sum_map_take_nonneg {α : Type} (f : α → ℚ) (l : List α) (k : Nat)
    (h : ∀ x ∈ l, 0 ≤ f x) : 0 ≤ ((l.take k).map f).sum := by
  apply List.sum_nonneg
  intro y hy
  rcases List.mem_map.mp hy with ⟨a, ha, rfl⟩
  exact h a (List.mem_of_mem_take ha)

theorem sum_map_take_succ_le {α : Type} (f : α → ℚ) (c : ℚ) :
    ∀ (l : List α) (k : Nat), (∀ x ∈ l, f x ≤ c) → (∀ x ∈ l, 0 ≤ f x) → 0 ≤ c →
      ((l.take (k + 1)).map f).sum ≤ c + ((l.take k).map f).sum
  | [], k => by
    intro _ _ hc
    simpa using hc
  | b :: t, 0 => by
    intro hle _ _
    simpa using hle b (List.mem_cons_self b t)
  | b :: t, k + 1 => by
    intro hle hnn hc
    have ih := sum_map_take_succ_le f c t k (fun x hx => hle x (List.mem_cons_of_mem b hx))
      (fun x hx => hnn x (List.mem_cons_of_mem b hx)) hc
    simp only [List.take_succ_cons, List.map_cons, List.sum_cons]
    linarith

theorem sum_map_sublist_le_take {α : Type} (f : α → ℚ) {s l : List α}
    (hsub : s.Sublist l) :
    l.Pairwise (fun a b => f b ≤ f a) → (∀ x ∈ l, 0 ≤ f x) →
      ∀ k : Nat, s.length ≤ k → (s.map f).sum ≤ ((l.take k).map f).sum := by
  induction hsub with
  | slnil =>
    intro _ _ k _
    simp
  | cons a hsub2 ih =>
    intro hpw hnn k hk
    rename_i s2 l2
    have ha := (List.pairwise_cons.mp hpw).1
    have htl := (List.pairwise_cons.mp hpw).2
    have hnn2 : ∀ x ∈ l2, 0 ≤ f x := fun x hx => hnn x (List.mem_cons_of_mem a hx)
    have hfa : 0 ≤ f a := hnn a (List.mem_cons_self a l2)
    cases k with
    | zero =>
      have hs0 : s2 = [] := List.length_eq_zero.mp (Nat.le_zero.mp hk)
      subst hs0
      simp
    | succ k2 =>
      have h1 := ih htl hnn2 (k2 + 1) hk
      have h2 := sum_map_take_succ_le f (f a) l2 k2 ha hnn2 hfa
      have h3 : (((a :: l2).take (k2 + 1)).map f).sum = f a + ((l2.take k2).map f).sum := by
        simp [List.take_succ_cons]
      linarith
  | cons₂ a hsub2 ih =>
    intro hpw hnn k hk
    rename_i s2 l2
    have htl := (List.pairwise_cons.mp hpw).2
    have hnn2 : ∀ x ∈ l2, 0 ≤ f x := fun x hx => hnn x (List.mem_cons_of_mem a hx)
    cases k with
    | zero => simp at hk
    | succ k2 =>
      have ih2 := ih htl hnn2 k2 (Nat.succ_le_succ_iff.mp hk)
      simp only [List.map_cons, List.sum_cons, List.take_succ_cons]
      linarith

theorem committed_sum_bounds (snap : Snapshot) (scorer : Scorer) (st : GenState)
    (i : ShiftInstance)
    (hs : ∀ (asgs : List Assignment) (e : Employee) (j : ShiftInstance),
      0 ≤ scorer asgs e j ∧ scorer asgs e j ≤ 1) :
    0 ≤ ((committedList snap scorer st i).map Prod.snd).sum ∧
      ((committedList snap scorer st i).map Prod.snd).sum ≤
        (((rankedList snap scorer st i).take i.requiredCount).map Prod.snd).sum := by
  have hsub : (committedList snap scorer st i).Sublist (rankedList snap scorer st i) :=
    commitLoop_sublist i (rankedList snap scorer st i) i.requiredCount st.assignments
  have hnn : ∀ x ∈ rankedList snap scorer st i, 0 ≤ x.2 :=
    fun x hx => (rankedList_mem_bounds snap scorer st i hs x hx).1
  constructor
  · apply List.sum_nonneg
    intro y hy
    rcases List.mem_map.mp hy with ⟨p, hp, rfl⟩
    exact hnn p (hsub.subset hp)
  · exact sum_map_sublist_le_take Prod.snd hsub
      (rankedList_pairwise_desc snap scorer st i) hnn i.requiredCount
      (committedList_length_le snap scorer st i)

theorem foldl_score_bounds (snap : Snapshot) (scorer : Scorer)
    (hs : ∀ (asgs : List Assignment) (e : Employee) (j : ShiftInstance),
      0 ≤ scorer asgs e j ∧ scorer asgs e j ≤ 1) :
    ∀ (insts : List ShiftInstance) (st : GenState), 0 ≤ st.numer → st.numer ≤ st.denom →
      0 ≤ ((insts.foldl (processInstance snap scorer) st).numer) ∧
        ((insts.foldl (processInstance snap scorer) st).numer) ≤
          ((insts.foldl (processInstance snap scorer) st).denom)
  | [], _ => fun h1 h2 => ⟨h1, h2⟩
  | i :: rest, st => fun h1 h2 => by
    rw [List.foldl_cons]
    have hcs := committed_sum_bounds snap scorer st i hs
    refine foldl_score_bounds snap scorer hs rest (processInstance snap scorer st i) ?_ ?_
    · show 0 ≤ st.numer + ((committedList snap scorer st i).map Prod.snd).sum
      linarith [hcs.1]
    · show st.numer + ((committedList snap scorer st i).map Prod.snd).sum ≤
        st.denom + (((rankedList snap scorer st i).take i.requiredCount).map Prod.snd).sum
      linarith [hcs.2]

/-- C4: for every successful generation the optimizer score is the sum of the
scores of the committed assignments divided by the sum of the best available
score of every required slot (unfilled slots contributing zero), and it lies
in the closed interval from 0 to 1, for any scorer variant ranging in
`[0, 1]`. -/
theorem optimizer_score_in_unit_interval (snap : Snapshot) (scorer : Scorer)
    (hs : ∀ (asgs : List Assignment) (e : Employee) (j : ShiftInstance),
      0 ≤ scorer asgs e j ∧ scorer asgs e j ≤ 1)
    (hok : (generate snap scorer).success = true) :
    (generate snap scorer).optimizerScore =
        (finalState snap scorer).numer / (finalState snap scorer).denom ∧
      0 ≤ (generate snap scorer).optimizerScore ∧
      (generate snap scorer).optimizerScore ≤ 1 := by
  by_cases h1 : snap.endDate < snap.startDate
  · exact absurd hok (by simp [generate, h1])
  by_cases h2 : maxHorizonDays < snap.endDate + 1 - snap.startDate
  · exact absurd hok (by simp [generate, h1, h2])
  have hb := foldl_score_bounds snap scorer hs (runInstances snap) initState le_rfl le_rfl
  have hsc : (generate snap scorer).optimizerScore =
      (finalState snap scorer).numer / (finalState snap scorer).denom := by
    simp [generate, h1, h2]
  have hnum : 0 ≤ (finalState snap scorer).numer := hb.1
  have hnd : (finalState snap scorer).numer ≤ (finalState snap scorer).denom := hb.2
  refine ⟨hsc, ?_, ?_⟩
  · rw [hsc]
    exact div_nonneg hnum (le_trans hnum hnd)
  · rw [hsc]
    exact div_le_one_of_le₀ hnd (le_trans hnum hnd)

unseal Rat.add Rat.mul Rat.sub Rat.inv in
/-- C4 witness: the example generation under the constant scorer succeeds and
its optimizer score is the committed-over-best ratio, within `[0, 1]`. -/
theorem optimizer_score_in_unit_interval_witness :
    ((∀ (asgs : List Assignment) (e : Employee) (j : ShiftInstance),
        0 ≤ wScorer asgs e j ∧ wScorer asgs e j ≤ 1) ∧
      (generate wSnap wScorer).success = true) ∧
    ((generate wSnap wScorer).optimizerScore =
        (finalState wSnap wScorer).numer / (finalState wSnap wScorer).denom ∧
      0 ≤ (generate wSnap wScorer).optimizerScore ∧
      (generate wSnap wScorer).optimizerScore ≤ 1) :=
  ⟨⟨fun _ _ _ => ⟨by norm_num [wScorer], by norm_num [wScorer]⟩, by decide⟩,
    optimizer_score_in_unit_interval wSnap wScorer
      (fun _ _ _ => ⟨by norm_num [wScorer], by norm_num [wScorer]⟩) (by decide)⟩

end Engine


namespace Api

theorem find?_update (acc : List (String × List Assignment)) (s : String) (a : Assignment)
    (d : String) :
    (acc.map (fun g => if g.1 == s then (g.1, g.2 ++ [a]) else g)).find?
        (fun g => g.1 == d) =
      (acc.find? (fun g => g.1 == d)).map
        (fun g => if g.1 == s then (g.1, g.2 ++ [a]) else g) := by
  induction acc with
  | nil => rfl
  | cons g t ih =>
    have hfst : ((if g.1 == s then (g.1, g.2 ++ [a]) else g).1 == d) = (g.1 == d) := by
      by_cases h : (g.1 == s) = true <;> simp [h]
    rw [List.map_cons, List.find?_cons, List.find?_cons, hfst]
    cases hgd : (g.1 == d) with
    | true => simp
    | false => simpa using ih

theorem groupStep_find (acc : List (String × List Assignment)) (a : Assignment) (d : String) :
    (groupStep acc a).find? (fun g => g.1 == d) =
      if (a.shiftDate == d) = true then
        (match acc.find? (fun g => g.1 == d) with
          | some g => some (g.1, g.2 ++ [a])
          | none => some (a.shiftDate, [a]))
      else acc.find? (fun g => g.1 == d) := by
  unfold groupStep
  by_cases hin : acc.any (fun g => g.1 == a.shiftDate) = true
  · rw [if_pos hin, find?_update]
    by_cases hd : (a.shiftDate == d) = true
    · have hde : a.shiftDate = d := eq_of_beq hd
      subst hde
      rw [if_pos hd]
      rcases hfind : acc.find? (fun g => g.1 == a.shiftDate) with _ | g
      · exfalso
        rcases List.any_eq_true.mp hin with ⟨g, hg, hgp⟩
        have hsome : (acc.find? (fun g => g.1 == a.shiftDate)).isSome = true :=
          List.find?_isSome.mpr ⟨g, hg, hgp⟩
        rw [hfind] at hsome
        simp at hsome
      · have hp := List.find?_some hfind
        have hpe : g.1 = a.shiftDate := eq_of_beq hp
        simp [hfind, hpe]
    · rw [if_neg hd]
      rcases hfind : acc.find? (fun g => g.1 == d) with _ | g
      · simp [hfind]
      · have hp := List.find?_some hfind
        have hne : ¬ g.1 = a.shiftDate := by
          intro hcontra
          apply hd
          rw [← hcontra]
          exact hp
        simp [hfind, hne]
  · rw [if_neg hin, List.find?_append]
    by_cases hd : (a.shiftDate == d) = true
    · rw [if_pos hd]
      rcases hfind : acc.find? (fun g => g.1 == d) with _ | g
      · simp [hfind, List.find?_cons, hd]
      · exfalso
        apply hin
        apply List.any_eq_true.mpr
        have hp := List.find?_some hfind
        refine ⟨g, List.mem_of_find?_eq_some hfind, ?_⟩
        rw [eq_of_beq hp, eq_of_beq hd]
        exact beq_self_eq_true d
    · rw [if_neg hd]
      simp [List.find?_cons, hd]

theorem foldl_groupStep_find :
    ∀ (l : List Assignment) (acc : List (String × List Assignment)) (d : String),
      (l.foldl groupStep acc).find? (fun g => g.1 == d) =
        match acc.find? (fun g => g.1 == d), l.filter (fun x => x.shiftDate == d) with
        | some g, f => some (g.1, g.2 ++ f)
        | none, [] => none
        | none, b :: f => some (b.shiftDate, b :: f)
  | [], acc, d => by
    rcases hf : acc.find? (fun g => g.1 == d) with _ | g <;> simp [hf]
  | a :: l, acc, d => by
    rw [List.foldl_cons, foldl_groupStep_find l (groupStep acc a) d, groupStep_find]
    by_cases hd : (a.shiftDate == d) = true
    · rw [if_pos hd, @List.filter_cons_of_pos _ (fun x => x.shiftDate == d) a l hd]
      rcases hf : acc.find? (fun g => g.1 == d) with _ | g
      · simp [hf]
      · simp [hf]
    · rw [if_neg hd, @List.filter_cons_of_neg _ (fun x => x.shiftDate == d) a l (by simp [hd])]

theorem dateGroup_eq_filter (l : List Assignment) (d : String) :
    dateGroup l d = l.filter (fun x => x.shiftDate == d) := by
  rw [dateGroup, assignmentsByDate, foldl_groupStep_find l [] d]
  rcases hf : l.filter (fun x => x.shiftDate == d) with _ | ⟨b, f⟩ <;> simp [hf]

theorem groupStep_keys (acc : List (String × List Assignment)) (a : Assignment) :
    (groupStep acc a).map Prod.fst =
      if acc.any (fun g => g.1 == a.shiftDate) = true then acc.map Prod.fst
      else acc.map Prod.fst ++ [a.shiftDate] := by
  unfold groupStep
  by_cases hin : acc.any (fun g => g.1 == a.shiftDate) = true
  · rw [if_pos hin, if_pos hin, List.map_map]
    apply List.map_congr_left
    intro g _
    by_cases h : g.1 = a.shiftDate <;> simp [h]
  · rw [if_neg hin, if_neg hin, List.map_append]
    rfl

theorem foldl_groupStep_keys_nodup :
    ∀ (l : List Assignment) (acc : List (String × List Assignment)),
      ((acc.map Prod.fst).Nodup) → (((l.foldl groupStep acc).map Prod.fst).Nodup)
  | [], _ => fun h => h
  | a :: l, acc => fun h => by
    rw [List.foldl_cons]
    apply foldl_groupStep_keys_nodup l
    rw [groupStep_keys]
    by_cases hin : acc.any (fun g => g.1 == a.shiftDate) = true
    · rw [if_pos hin]
      exact h
    · rw [if_neg hin]
      refine List.Nodup.append h (List.nodup_singleton _) ?_
      intro x hx1 hx2
      apply hin
      apply List.any_eq_true.mpr
      rcases List.mem_map.mp hx1 with ⟨g, hg, rfl⟩
      have hxe : g.1 = a.shiftDate := by simpa using hx2
      exact ⟨g, hg, beq_iff_eq.mpr hxe⟩

theorem shiftDate_mem_keys (l : List Assignment) (a : Assignment) (ha : a ∈ l) :
    a.shiftDate ∈ (assignmentsByDate l).map Prod.fst := by
  rcases hfil : l.filter (fun x => x.shiftDate == a.shiftDate) with _ | ⟨b, f⟩
  · exfalso
    have hmem : a ∈ l.filter (fun x => x.shiftDate == a.shiftDate) :=
      List.mem_filter.mpr ⟨ha, by simp⟩
    rw [hfil] at hmem
    simp at hmem
  · have hfind := foldl_groupStep_find l [] a.shiftDate
    rw [hfil] at hfind
    have hb : (b.shiftDate == a.shiftDate) = true := by
      have hbmem : b ∈ l.filter (fun x => x.shiftDate == a.shiftDate) := by
        rw [hfil]
        exact List.mem_cons_self b f
      exact (List.mem_filter.mp hbmem).2
    have hmem := List.mem_of_find?_eq_some hfind
    have hsd : b.shiftDate ∈ (assignmentsByDate l).map Prod.fst :=
      List.mem_map_of_mem Prod.fst hmem
    rw [eq_of_beq hb] at hsd
    exact hsd

theorem sortedDates_sorted (l : List Assignment) :
    (sortedDates l).Sorted (fun s t : String => s ≤ t) := by
  haveI : IsTotal String (fun s t : String => s ≤ t) := ⟨fun s t => le_total s t⟩
  haveI : IsTrans String (fun s t : String => s ≤ t) := ⟨fun _ _ _ h1 h2 => le_trans h1 h2⟩
  exact List.sorted_insertionSort _ _

theorem sortedDates_perm_keys (l : List Assignment) :
    List.Perm (sortedDates l) ((assignmentsByDate l).map Prod.fst) :=
  List.perm_insertionSort _ _

theorem sortedDates_nodup (l : List Assignment) : (sortedDates l).Nodup :=
  ((sortedDates_perm_keys l).nodup_iff).mpr
    (foldl_groupStep_keys_nodup l [] List.nodup_nil)

theorem shiftDate_mem_sortedDates (l : List Assignment) (a : Assignment) (ha : a ∈ l) :
    a.shiftDate ∈ sortedDates l :=
  ((sortedDates_perm_keys l).mem_iff).mpr (shiftDate_mem_keys l a ha)

theorem flatten_filter_perm :
    ∀ (ds : List String) (l : List Assignment), ds.Nodup →
      (∀ a ∈ l, a.shiftDate ∈ ds) →
      List.Perm ((ds.map (fun d => l.filter (fun x => x.shiftDate == d))).flatten) l
  | [], l => fun _ hcov => by
    have hl : l = [] :=
      List.eq_nil_iff_forall_not_mem.mpr (fun a ha => by simpa using hcov a ha)
    subst hl
    simp
  | d :: ds, l => fun hnd hcov => by
    rw [List.map_cons, List.flatten_cons]
    have hdnotin := (List.nodup_cons.mp hnd).1
    have hnd2 := (List.nodup_cons.mp hnd).2
    have hcong : ∀ d2 ∈ ds, l.filter (fun x => x.shiftDate == d2) =
        (l.filter (fun x => !(x.shiftDate == d))).filter (fun x => x.shiftDate == d2) := by
      intro d2 hd2
      rw [List.filter_filter]
      apply List.filter_congr
      intro x _
      by_cases hx : (x.shiftDate == d2) = true
      · have hxd : (x.shiftDate == d) = false := by
          apply beq_eq_false_iff_ne.mpr
          intro hcontra
          apply hdnotin
          have hdd : d2 = d := by rw [← eq_of_beq hx, hcontra]
          rw [← hdd]
          exact hd2
        simp [hx, hxd]
      · simp [eq_false_of_ne_true hx]
    have hcov2 : ∀ a ∈ l.filter (fun x => !(x.shiftDate == d)), a.shiftDate ∈ ds := by
      intro a ha
      rcases List.mem_filter.mp ha with ⟨hal, hprop⟩
      rcases List.mem_cons.mp (hcov a hal) with h1 | h2
      · exfalso
        rw [h1] at hprop
        simp at hprop
      · exact h2
    have ih := flatten_filter_perm ds (l.filter (fun x => !(x.shiftDate == d))) hnd2 hcov2
    rw [List.map_congr_left hcong]
    exact (List.Perm.append_left _ ih).trans (List.filter_append_perm _ l)

theorem filter_orderedInsert (a : Assignment) (l : List Assignment)
    (k : Lex (String × String)) :
    (List.orderedInsert listRel a l).filter (fun x => sortKey x == k) =
      if sortKey a = k then a :: l.filter (fun x => sortKey x == k)
      else l.filter (fun x => sortKey x == k) := by
  induction l with
  | nil =>
    by_cases h : sortKey a = k
    · simp [List.orderedInsert, h]
    · simp [List.orderedInsert, h]
  | cons b t ih =>
    by_cases hr : listRel a b
    · rw [List.orderedInsert, if_pos hr]
      by_cases h : sortKey a = k
      · rw [if_pos h, @List.filter_cons_of_pos _ (fun x => sortKey x == k) a (b :: t)
          (beq_iff_eq.mpr h)]
      · rw [if_neg h, @List.filter_cons_of_neg _ (fun x => sortKey x == k) a (b :: t)
          (by simp [h])]
    · have hlt : sortKey b < sortKey a := not_le.mp hr
      rw [List.orderedInsert, if_neg hr,
        @List.filter_cons _ b (List.orderedInsert listRel a t) (fun x => sortKey x == k),
        @List.filter_cons _ b t (fun x => sortKey x == k)]
      by_cases h : sortKey a = k
      · have hbk : (sortKey b == k) = false := by
          apply beq_eq_false_iff_ne.mpr
          intro hb
          rw [hb, ← h] at hlt
          exact lt_irrefl _ hlt
        simp only [hbk, ih, if_pos h, Bool.false_eq_true, if_false]
      · by_cases hbk : (sortKey b == k) = true <;>
          simp [hbk, ih, h]

theorem filter_insertionSort (k : Lex (String × String)) :
    ∀ l : List Assignment,
      (List.insertionSort listRel l).filter (fun x => sortKey x == k) =
        l.filter (fun x => sortKey x == k)
  | [] => rfl
  | a :: t => by
    rw [List.insertionSort, filter_orderedInsert, filter_insertionSort k t]
    by_cases h : sortKey a = k
    · rw [if_pos h,
        @List.filter_cons_of_pos _ (fun x => sortKey x == k) a t (beq_iff_eq.mpr h)]
    · rw [if_neg h,
        @List.filter_cons_of_neg _ (fun x => sortKey x == k) a t (by simp [h])]

/-- C8: `GetScheduleAssignments` returns the schedule's assignments sorted by
date ascending, then start time ascending, as a stable reordering of the
stored rows (ties keep their stored relative order: filtering on any fixed
sort key returns the same sublist as on the stored list); and the
`ScheduleDetail` grouping of the returned list renders each date group as the
sublist of assignments of that date, lists the date headers in ascending order
without repetition, and overall displays a permutation of the returned list —
no assignment is dropped or duplicated. -/
theorem assignments_ordered_and_grouped (stored : List Assignment) :
    (getScheduleAssignments stored).Sorted listRel ∧
    List.Perm (getScheduleAssignments stored) stored ∧
    (∀ k : Lex (String × String),
      (getScheduleAssignments stored).filter (fun x => sortKey x == k) =
        stored.filter (fun x => sortKey x == k)) ∧
    (sortedDates (getScheduleAssignments stored)).Sorted (fun s t : String => s ≤ t) ∧
    (sortedDates (getScheduleAssignments stored)).Nodup ∧
    (∀ d : String, dateGroup (getScheduleAssignments stored) d =
      (getScheduleAssignments stored).filter (fun x => x.shiftDate == d)) ∧
    List.Perm (displayedAssignments (getScheduleAssignments stored))
      (getScheduleAssignments stored) := by
  refine ⟨?_, ?_, ?_, ?_, ?_, ?_, ?_⟩
  · haveI : IsTotal Assignment listRel := ⟨fun p q => le_total (sortKey p) (sortKey q)⟩
    haveI : IsTrans Assignment listRel := ⟨fun _ _ _ h1 h2 => le_trans h1 h2⟩
    exact List.sorted_insertionSort _ _
  · exact List.perm_insertionSort _ _
  · exact fun k => filter_insertionSort k stored
  · exact sortedDates_sorted _
  · exact sortedDates_nodup _
  · exact fun d => dateGroup_eq_filter _ d
  · rw [displayedAssignments]
    have hcong : (sortedDates (getScheduleAssignments stored)).map
        (dateGroup (getScheduleAssignments stored)) =
        (sortedDates (getScheduleAssignments stored)).map
          (fun d => (getScheduleAssignments stored).filter (fun x => x.shiftDate == d)) :=
      List.map_congr_left (fun d _ => dateGroup_eq_filter _ d)
    rw [hcong]
    exact flatten_filter_perm _ _ (sortedDates_nodup _)
      (fun a ha => shiftDate_mem_sortedDates _ a ha)

end Api
